import Mathlib

/-!
Verification development for the swig-tp template engine core
(`src/parser.ts`, `src/tags/for.ts`, the `else` tag module and the
`include` tag module).

The expression compiler (`TokenParser`) is embedded as a state machine over
an explicit record `TP`; the JavaScript code fragments it emits are kept as
strings (as in the source), and where a claim is about the *runtime*
behaviour of an emitted fragment, a semantic interpreter mirroring the
fragment's structure is defined alongside (`checkMatchSem`, `forLoopRun`,
`includeRender`), with the JavaScript evaluation rules (property access on
`undefined`/`null` throws a TypeError, an undeclared identifier throws a
ReferenceError except directly under `typeof`, assignment to a property of
a primitive is silently dropped in sloppy mode) made explicit.

Modelling notes, applying throughout:
* The lexer (`src/lexer.ts`) and `src/utils.ts` are not part of the
  sources provided; the token-type enumeration, `utils.each` (in-order
  iteration), `utils.throwError` (throws an error carrying message, line
  and file) and `utils.keys` (keys of a mapping, `[]` on falsy input) are
  modelled from the spec (sections 3, 6 and 7).
* `TokenParser` declares `out: string[]`, `state: any[]`,
  `filterApplyIdx: number[]` and `parsers: Parsers` but its constructor
  does not assign them; they are modelled as initially empty, following
  their type annotations, so that the machine the claims describe can run.
* JavaScript array idioms are translated by their semantics:
  `arr[arr.length-1]` on an empty array is `undefined`, and
  `splice(undefined, 0, x)` inserts at position 0, hence `headD 0` /
  clamping `take`/`drop` below; `pop()` on an empty array is a no-op
  returning `undefined`.
-/

/-- Token kinds of the lexer interface (modelled from the spec, section 3:
a closed enumeration of classified token kinds; the names follow the
`lexer.types` members referenced by `parser.ts`, including the source's
`WHITESAPCE` spelling). `METHODOPEN` and `ARRAYOPEN` double as
nesting-state markers. -/
inductive TokType where
  | WHITESAPCE | STRING | NUMBER | BOOL
  | FILTER | FILTEREMPTY | FUNCTION | FUNCTIONEMPTY
  | PARENOPEN | PARENCLOSE | COMMA | COLON
  | LOGIC | COMPARATOR | NOT | OPERATOR
  | VAR | DOTKEY
  | BRACKETOPEN | BRACKETCLOSE | CURLYOPEN | CURLYCLOSE
  | METHODOPEN | ARRAYOPEN | UNKNOWN
  deriving DecidableEq, Repr

/-- A lexer token: kind plus matched text (`{type, match}` in the source;
`match` is renamed `mtch` because `match` is a Lean keyword). -/
structure LexerToken where
  type : TokType
  mtch : String
  deriving DecidableEq, Repr

/-- An entry of `TokenParser.state` (`state: any[]`): either a token-type
code, or the literal string `')'` that the `FILTEREMPTY` case of
`parseToken` pushes (parser.ts:233). -/
inductive StackVal where
  | t (ty : TokType)
  | closeParen
  deriving DecidableEq, Repr

/-- The `escape` / `autoescape` field: the source stores either a boolean
or a string escape mode (`typeof this.escape === 'string'`,
parser.ts:127). -/
inductive Esc where
  | b (v : Bool)
  | s (v : String)
  deriving DecidableEq, Repr

/-- JavaScript truthiness of an escape value (`if (this.escape)`,
parser.ts:125): `false` and the empty string are falsy. -/
def Esc.truthy : Esc → Bool
  | .b v => v
  | .s v => v ≠ ""

/-- `String(this.autoescape)` (parser.ts:130). -/
def Esc.toStr : Esc → String
  | .b true => "true"
  | .b false => "false"
  | .s v => v

/-- Errors. `swig m l f` models `utils.throwError(m, l, f)` (modelled from
the spec, section 7: syntax errors always carry line number and source
file name); `thrown m` models a plain `throw new Error(m)` in a tag
module; `typeErr` / `refErr` are the JavaScript TypeError / ReferenceError
raised by evaluating emitted code. -/
inductive Err where
  | swig (msg : String) (line : Nat) (file : Option String)
  | thrown (msg : String)
  | typeErr
  | refErr
  deriving DecidableEq, Repr

/-- JavaScript runtime values, as far as the emitted code needs them:
`undefined`, `null`, booleans, numbers (the flows under verification only
produce integers and `NaN`), strings and plain objects as insertion-ordered
field lists. -/
inductive Js where
  | undefined
  | null
  | nan
  | b (v : Bool)
  | num (v : Int)
  | str (v : String)
  | obj (fields : List (String × Js))
  deriving Repr

/-- Lookup in an object's field list (first match). -/
def assocGet : List (String × Js) → String → Option Js
  | [], _ => none
  | (k', v) :: rest, k => if k' = k then some v else assocGet rest k

/-- Replace-or-append update of an object's field list, preserving
insertion order as JavaScript property assignment does. -/
def assocSet : List (String × Js) → String → Js → List (String × Js)
  | [], k, v => [(k, v)]
  | (k', v') :: rest, k, v =>
      if k' = k then (k, v) :: rest else (k', v') :: assocSet rest k v

/-- JavaScript property read `o.k`: throws TypeError on `undefined`/`null`,
returns the field (or `undefined`) on objects, and `undefined` on other
primitives. -/
def getProp : Js → String → Except Err Js
  | .undefined, _ => .error .typeErr
  | .null, _ => .error .typeErr
  | .obj fs, k => .ok ((assocGet fs k).getD .undefined)
  | _, _ => .ok .undefined

/-- Total property read used only for *observing* results in theorem
statements (never to model evaluation). -/
def getPropD (o : Js) (k : String) : Js :=
  match o with
  | .obj fs => (assocGet fs k).getD .undefined
  | _ => .undefined

/-- JavaScript property write `o.k = v`: throws TypeError on
`undefined`/`null`, updates objects, and is silently dropped on other
primitives (sloppy mode). -/
def jsSetProp : Js → String → Js → Except Err Js
  | .undefined, _, _ => .error .typeErr
  | .null, _, _ => .error .typeErr
  | .obj fs, k, v => .ok (.obj (assocSet fs k v))
  | o, _, _ => .ok o

/-- `o.k1.k2...`: fold of property reads. -/
def evalChainFrom (v : Js) : List String → Except Err Js
  | [] => .ok v
  | k :: rest => do evalChainFrom (← getProp v k) rest

def Js.isUndefined : Js → Bool
  | .undefined => true
  | _ => false

def Js.isNull : Js → Bool
  | .null => true
  | _ => false

/-- JavaScript truthiness. -/
def Js.truthy : Js → Bool
  | .undefined => false
  | .null => false
  | .nan => false
  | .b v => v
  | .num n => n ≠ 0
  | .str s => s ≠ ""
  | .obj _ => true

/-- `v === 0`. -/
def Js.eqZero : Js → Bool
  | .num n => n = 0
  | _ => false

/-- `v + d` for the loop counters: numbers add, anything else gives `NaN`
(`undefined + 1` is `NaN`). -/
def jsAdd (v : Js) (d : Int) : Js :=
  match v with
  | .num n => .num (n + d)
  | _ => .nan

/-- Strict inequality against the number `-1` (`x !== -1`): false only for
the number `-1` itself; values of any other type or value compare
unequal. -/
def jsNeqNegOne : Js → Bool
  | .num n => n ≠ -1
  | _ => true

/-- Split a character list on a separator character (the list of segments
between occurrences of `sep`; the empty input yields one empty segment,
as JavaScript's `split` and `String.splitOn` do for a one-character
separator). -/
def splitCharAux (sep : Char) : List Char → List Char → List (List Char)
  | [], acc => [acc.reverse]
  | c :: rest, acc =>
      if c = sep then acc.reverse :: splitCharAux sep rest []
      else splitCharAux sep rest (c :: acc)

/-- `s.split(sep)` for a one-character separator. -/
def splitOnChar (sep : Char) (s : String) : List String :=
  (splitCharAux sep s.data []).map fun cs => ⟨cs⟩

/-- `s.replace(/\\/g, '\\\\')`: double every backslash. -/
def escBackslashChars : List Char → List Char
  | [] => []
  | c :: rest =>
      if c = '\\' then '\\' :: '\\' :: escBackslashChars rest
      else c :: escBackslashChars rest

def jsEscapeBackslash (s : String) : String := ⟨escBackslashChars s.data⟩

/-! ## `TokenParser.checkMatch` (parser.ts:424-449): the emitted guard text -/

/-- The `utils.each` loop inside `checkDot` (parser.ts:433-439): for each
segment after the first it appends
`' && ' + c + '.' + v + ' !== undefiend && ' + c + '.' + v + ' !== null'`
(the source misspells `undefined` as `undefiend`) and extends `c`. -/
def checkDotLoop : String → List String → String
  | _, [] => ""
  | c, v :: rest =>
      s!" && {c}.{v} !== undefiend && {c}.{v} !== null" ++
        checkDotLoop (c ++ "." ++ v) rest

/-- `checkDot(ctx)` (parser.ts:427-442): the existence guard for one
candidate root. `c` starts as `ctx + match[0]`. -/
def checkDotStr (ctxPre : String) (mtch : List String) : String :=
  let c := ctxPre ++ mtch.headD ""
  s!"(typeof {c} !== \"undefined\" && {c} !== null" ++ checkDotLoop c mtch.tail ++ ")"

/-- `buildDot(ctx)` (parser.ts:444-446). -/
def buildDotStr (ctxPre : String) (mtch : List String) : String :=
  "(" ++ checkDotStr ctxPre mtch ++ "?" ++ ctxPre ++
    String.intercalate "." mtch ++ " : \"\")"

/-- `checkMatch(match)` (parser.ts:424-449): the full guarded path
expression text pushed into the output buffer. -/
def checkMatchStr (mtch : List String) : String :=
  let result := "(" ++ checkDotStr "_ctx." mtch ++ " ? " ++
    buildDotStr "_ctx." mtch ++ " : " ++ buildDotStr "" mtch ++ ")"
  "(" ++ result ++ " !== null ? " ++ result ++ " : " ++ "\"\" )"

/-! ## Render-time semantics of the emitted guard text

The emitted text is JavaScript evaluated inside the compiled render
function, where `_ctx` is the render context object and loop variables /
helpers live in the bare scope. The interpreters below mirror the
structure of `checkDotStr` / `buildDotStr` / `checkMatchStr` conjunct by
conjunct under JavaScript evaluation rules. -/

/-- The scope of bare identifiers visible to the emitted expression. -/
abbrev Scope := List (String × Js)

/-- Resolve the root identifier of a dotted chain: `_ctx` is always the
context object; any other root is looked up among the bare bindings. -/
def resolveRoot (ctxObj : Js) (scope : Scope) (name : String) : Option Js :=
  if name = "_ctx" then some ctxObj else assocGet scope name

/-- Evaluate a dotted chain `root.k1.k2...` (given as its segment list) in
value position: an undeclared root throws a ReferenceError. -/
def evalSegs (ctxObj : Js) (scope : Scope) : List String → Except Err Js
  | [] => .error .refErr
  | root :: rest =>
      match resolveRoot ctxObj scope root with
      | none => .error .refErr
      | some v => evalChainFrom v rest

/-- `typeof root.k1... !== "undefined"`: `typeof` protects only a direct
undeclared identifier (yielding `"undefined"`, hence `false` here without
an error); with trailing segments the root reference itself is evaluated,
so an undeclared root throws and a missing intermediate throws a
TypeError. -/
def typeofDefined (ctxObj : Js) (scope : Scope) : List String → Except Err Bool
  | [] => .ok false
  | root :: rest =>
      match resolveRoot ctxObj scope root with
      | none => if rest.isEmpty then .ok false else .error .refErr
      | some v => do
          let val ← evalChainFrom v rest
          .ok (!val.isUndefined)

/-- Evaluation of the guard `checkDotStr ctxPre mtch` emits:
`(typeof c !== "undefined" && c !== null [&& c.v !== undefiend && ...])`
with `c = ctxPre ++ mtch[0]` re-split on dots by JavaScript's member
access. The `&&` chain short-circuits; if the first two conjuncts hold
and `mtch` has further segments, the next conjunct evaluates `c.v` and
then the undeclared identifier `undefiend`, which throws a
ReferenceError. -/
def checkDotSem (ctxObj : Js) (scope : Scope) (ctxPre : String)
    (mtch : List String) : Except Err Bool := do
  let segs := splitOnChar '.' (ctxPre ++ mtch.headD "")
  let d ← typeofDefined ctxObj scope segs
  if !d then .ok false
  else do
    let v ← evalSegs ctxObj scope segs
    if v.isNull then .ok false
    else
      match mtch.tail with
      | [] => .ok true
      | v1 :: _ => do
          let _ ← evalSegs ctxObj scope (segs ++ [v1])
          .error .refErr

/-- Evaluation of `buildDotStr ctxPre mtch`:
`(checkDot ? ctxPre ++ mtch.join(".") : "")`. -/
def buildDotSem (ctxObj : Js) (scope : Scope) (ctxPre : String)
    (mtch : List String) : Except Err Js := do
  let g ← checkDotSem ctxObj scope ctxPre mtch
  if g then evalSegs ctxObj scope (splitOnChar '.' (ctxPre ++ String.intercalate "." mtch))
  else .ok (.str "")

/-- Evaluation of `checkMatchStr mtch`: prefer the `_ctx.`-rooted candidate
when its guard passes, otherwise the bare-scope candidate; a `null` result
collapses to the empty string (parser.ts:447-448). -/
def checkMatchSem (ctxObj : Js) (scope : Scope) (mtch : List String) :
    Except Err Js := do
  let g ← checkDotSem ctxObj scope "_ctx." mtch
  let r ← if g then buildDotSem ctxObj scope "_ctx." mtch
          else buildDotSem ctxObj scope "" mtch
  .ok (if r.isNull then .str "" else r)

/-! ## The compiler session state (`TokenParser`) -/

/-- Keyed filter table: filter name to its `safe` flag. An entry being
present models `filters.hasOwnProperty(m) && typeof filters[m] ===
'function'`. -/
abbrev Filters := List (String × Bool)

def filtersGet : Filters → String → Option Bool
  | [], _ => none
  | (k', v) :: rest, k => if k' = k then some v else filtersGet rest k

/-- The mutable state of a `TokenParser` (parser.ts:72-101). The output
buffer grows at the end (`push`); `state` and `filterApplyIdx` are stacks
with the top at the head (source: top of the JavaScript array). -/
structure TP where
  out : List String
  state : List StackVal
  filterApplyIdx : List Nat
  escape : Esc
  autoescape : Esc
  filters : Filters
  line : Nat
  filename : Option String
  prevToken : Option LexerToken

/-- `new TokenParser(tokens, filters, autoescape, line, filename)`
(parser.ts:95-101): `escape` and `autoescape` both start as the
`autoescape` argument; `out`, `state` and `filterApplyIdx` start empty
(see the modelling notes at the top of this file). -/
def mkParser (filters : Filters) (autoescape : Esc) (line : Nat)
    (filename : Option String) : TP :=
  { out := [], state := [], filterApplyIdx := [], escape := autoescape,
    autoescape := autoescape, filters := filters, line := line,
    filename := filename, prevToken := none }

/-- `this.filterApplyIdx[this.filterApplyIdx.length - 1]`: top of the
insertion-point stack; on an empty stack the source reads `undefined`,
which `splice` then treats as position 0. -/
def faiTop (tp : TP) : Nat := tp.filterApplyIdx.headD 0

/-- `out.splice(i, 0, x)` with a clamped position, as in JavaScript. -/
def spliceAt (l : List String) (i : Nat) (x : String) : List String :=
  l.take i ++ [x] ++ l.drop i

/-- `parseVar` (parser.ts:397-415). The source splits the identifier on
`','` (not `'.'`), and then tests
`_reserved.indexOf[matchArr[0]] !== -1` — a property *read* on the
`indexOf` method instead of a call. -/
def parseVarMatchArr (mtch : String) : List String := splitOnChar ',' mtch

/-- The value of `_reserved.indexOf[k]`: a property read on the
`Array.prototype.indexOf` function object. Its own properties are
`length` (arity 1) and `name` (`"indexOf"`); every other key resolves to
an inherited function-valued member (`call`, `apply`, ...) or
`undefined`. No key yields the number `-1`, which is the only value the
claim-relevant test `!== -1` distinguishes, so the inherited
function-valued members are collapsed to `undef` here. -/
def indexOfMember (k : String) : Js :=
  if k = "length" then .num 1
  else if k = "name" then .str "indexOf"
  else .undefined

/-- `_reserved` (parser.ts:7). The list is never consulted at runtime:
`parseVar` reads a property of `indexOf` instead of invoking it. -/
def reservedWords : List String :=
  ["break", "case", "catch", "continue", "debugger", "default", "delete",
   "do", "else", "finally", "for", "function", "if", "in", "instanceof",
   "new", "return", "switch", "this", "throw", "try", "typeof", "var",
   "void", "while", "with"]

/-- `TokenParser.parseVar(token, match, lastState)` (parser.ts:397-415),
acting on the session state. Because `indexOfMember` is never `-1`, the
guard on line 400 fires for every identifier and the remainder of the
function (insertion-point push, object-literal key case, `checkMatch`
emission) is unreachable; it is still translated below it. -/
def parseVarTP (tp : TP) (mtch : String) (lastState : Option StackVal) :
    Except Err TP :=
  let matchArr := parseVarMatchArr mtch
  let head := matchArr.headD ""
  if jsNeqNegOne (indexOfMember head) then
    .error (.swig
      ("Reserved keyword \"" ++ head ++ "\" attempted to be used as a variable")
      tp.line tp.filename)
  else
    let tp := { tp with filterApplyIdx := tp.out.length :: tp.filterApplyIdx }
    if lastState = some (.t .CURLYOPEN) then
      if matchArr.length > 1 then
        .error (.swig "Unexpected dot" tp.line tp.filename)
      else .ok { tp with out := tp.out ++ [head] }
    else .ok { tp with out := tp.out ++ [checkMatchStr matchArr] }

/-! ## `TokenParser.parseToken` (parser.ts:170-389) -/

/-- The token kinds excluded from the automatic argument comma after an
open filter call (parser.ts:188-192). -/
def filterCommaExcluded (ty : TokType) : Bool :=
  ty = .PARENCLOSE || ty = .COMMA || ty = .OPERATOR || ty = .FILTER ||
    ty = .FILTEREMPTY

/-- The token kinds a `DOTKEY` may legally follow (parser.ts:370-378). -/
def dotkeyAllowedPrev (ty : TokType) : Bool :=
  ty = .VAR || ty = .BRACKETCLOSE || ty = .DOTKEY || ty = .PARENCLOSE ||
    ty = .FUNCTIONEMPTY || ty = .FILTEREMPTY || ty = .CURLYCLOSE

/-- The nesting states in which a comma is legal (parser.ts:284-289). -/
def commaAllowedState (s : StackVal) : Bool :=
  s = .t .FUNCTION || s = .t .FILTER || s = .t .ARRAYOPEN ||
    s = .t .CURLYOPEN || s = .t .PARENOPEN || s = .t .COLON

/-- The previous-token kinds after which a logic/comparator token is
illegal (parser.ts:301-307); `same` is the incoming token's own kind. -/
def logicIllegalPrev (same : TokType) (ty : TokType) : Bool :=
  ty = .COMMA || ty = same || ty = .BRACKETOPEN || ty = .CURLYOPEN ||
    ty = .PARENOPEN || ty = .FUNCTION

/-- The pre-switch adjustments of `parseToken` (parser.ts:185-201):
right after a filter-open token, inside that open filter call, a
non-excluded token is preceded by an argument comma (185-194); a pending
METHODOPEN marker is popped and, unless the call closes immediately, an
argument comma is emitted (196-201). -/
def preSwitchAdjust (prevType : Option TokType) (lastState : Option StackVal)
    (tokType : TokType) (tp0 : TP) : TP :=
  let tp1 :=
    if lastState = some (.t .FILTER) ∧ prevType = some .FILTER ∧
        filterCommaExcluded tokType = false then
      { tp0 with out := tp0.out ++ [", "] }
    else tp0
  if lastState = some (.t .METHODOPEN) then
    { tp1 with state := tp1.state.tail,
               out := if tokType = .PARENCLOSE then tp1.out
                      else tp1.out ++ [", "] }
  else tp1

/-- The default handling of one token: the pre-switch adjustments
(parser.ts:185-201) followed by the `switch` (parser.ts:203-388).
`prevTok` and `lastState` are the values read at the top of `parseToken`
(parser.ts:172-176), before any custom per-token handler ran. -/
def parseTokenSwitch (prevTok : Option LexerToken) (lastState : Option StackVal)
    (tok : LexerToken) (tp2 : TP) : Except Err TP :=
  let m := tok.mtch
  let prevType : Option TokType := prevTok.map (·.type)
  match tok.type with
  | .WHITESAPCE => .ok tp2
  | .STRING =>
      .ok { tp2 with filterApplyIdx := tp2.out.length :: tp2.filterApplyIdx,
                     out := tp2.out ++ [jsEscapeBackslash m] }
  | .NUMBER =>
      .ok { tp2 with filterApplyIdx := tp2.out.length :: tp2.filterApplyIdx,
                     out := tp2.out ++ [m] }
  | .BOOL =>
      .ok { tp2 with filterApplyIdx := tp2.out.length :: tp2.filterApplyIdx,
                     out := tp2.out ++ [m] }
  | .FILTER =>
      match filtersGet tp2.filters m with
      | none =>
          .error (.swig ("Invaliad filter \"" ++ m ++ "\"") tp2.line tp2.filename)
      | some safe =>
          .ok { tp2 with
                escape := if safe then .b false else tp2.escape,
                out := spliceAt tp2.out (faiTop tp2) ("_filters[\"" ++ m ++ "\"]("),
                state := .t .FILTER :: tp2.state }
  | .FILTEREMPTY =>
      match filtersGet tp2.filters m with
      | none =>
          .error (.swig ("Invaliad filter \"" ++ m ++ "\"") tp2.line tp2.filename)
      | some safe =>
          -- parser.ts:233 — the closing paren is pushed onto the nesting
          -- state stack, not the output buffer.
          .ok { tp2 with
                escape := if safe then .b false else tp2.escape,
                out := spliceAt tp2.out (faiTop tp2) ("_filters[\"" ++ m ++ "\"]("),
                state := .closeParen :: tp2.state }
  | .FUNCTION =>
      let callStr := "((typeof _ctx." ++ m ++ " !== \"undefined\") ? _ctx." ++ m ++
        " : ((typeof " ++ m ++ " !== \"undefined\") ? " ++ m ++ " : _fn))("
      let tpA := { tp2 with out := tp2.out ++ [callStr], escape := .b false,
                            state := .t .FUNCTION :: tp2.state }
      .ok { tpA with filterApplyIdx := (tpA.out.length - 1) :: tpA.filterApplyIdx }
  | .FUNCTIONEMPTY =>
      let callStr := "((typeof _ctx." ++ m ++ " !== \"undefined\") ? _ctx." ++ m ++
        " : ((typeof " ++ m ++ " !== \"undefined\") ? " ++ m ++ " : _fn))("
      let tpA := { tp2 with out := tp2.out ++ [callStr ++ ")"], escape := .b false }
      .ok { tpA with filterApplyIdx := (tpA.out.length - 1) :: tpA.filterApplyIdx }
  | .PARENOPEN =>
      let tpA := { tp2 with state := .t .PARENOPEN :: tp2.state }
      if tpA.filterApplyIdx.length ≠ 0 then
        let tpB := { tpA with out := spliceAt tpA.out (faiTop tpA) "(" }
        match prevTok with
        | some pt =>
            if pt.type = .VAR then
              let temp := (splitOnChar '.' pt.mtch).dropLast
              let tpC := { tpB with
                out := tpB.out ++ [" || _fn).call" ++ checkMatchStr temp],
                state := .t .METHODOPEN :: tpB.state,
                escape := .b false }
              .ok { tpC with
                    filterApplyIdx := (tpC.out.length - 3) :: tpC.filterApplyIdx }
            else
              let tpC := { tpB with out := tpB.out ++ [" || _fn)("] }
              .ok { tpC with
                    filterApplyIdx := (tpC.out.length - 3) :: tpC.filterApplyIdx }
        | none =>
            let tpC := { tpB with out := tpB.out ++ [" || _fn)("] }
            .ok { tpC with
                  filterApplyIdx := (tpC.out.length - 3) :: tpC.filterApplyIdx }
      else
        let tpB := { tpA with out := tpA.out ++ ["("] }
        .ok { tpB with filterApplyIdx := (tpB.out.length - 1) :: tpB.filterApplyIdx }
  | .PARENCLOSE =>
      match tp2.state with
      | [] => .error (.swig "Mismatched nesting state" tp2.line tp2.filename)
      | top :: rest =>
          if top ≠ .t .PARENOPEN ∧ top ≠ .t .FUNCTION ∧ top ≠ .t .FILTER then
            .error (.swig "Mismatched nesting state" tp2.line tp2.filename)
          else
            let tpA := { tp2 with state := rest, out := tp2.out ++ [")"],
                                  filterApplyIdx := tp2.filterApplyIdx.tail }
            if top ≠ .t .FILTER then
              .ok { tpA with filterApplyIdx := tpA.filterApplyIdx.tail }
            else .ok tpA
  | .COMMA =>
      match lastState with
      | none => .error (.swig "Unexpected comma" tp2.line tp2.filename)
      | some ls =>
          if ¬ commaAllowedState ls then
            .error (.swig "Unexpected comma" tp2.line tp2.filename)
          else
            let tpA := if ls = .t .COLON then { tp2 with state := tp2.state.tail }
                       else tp2
            .ok { tpA with out := tpA.out ++ [", "],
                           filterApplyIdx := tpA.filterApplyIdx.tail }
  | .LOGIC =>
      match prevTok with
      | none => .error (.swig "Unexpected logic" tp2.line tp2.filename)
      | some pt =>
          if logicIllegalPrev tok.type pt.type then
            .error (.swig "Unexpected logic" tp2.line tp2.filename)
          else .ok { tp2 with out := tp2.out ++ [m] }
  | .COMPARATOR =>
      match prevTok with
      | none => .error (.swig "Unexpected logic" tp2.line tp2.filename)
      | some pt =>
          if logicIllegalPrev tok.type pt.type then
            .error (.swig "Unexpected logic" tp2.line tp2.filename)
          else .ok { tp2 with out := tp2.out ++ [m] }
  | .NOT => .ok { tp2 with out := tp2.out ++ [m] }
  | .VAR => parseVarTP tp2 m lastState
  | .BRACKETOPEN =>
      if prevTok = none ∨
          (prevType ≠ some .VAR ∧ prevType ≠ some .BRACKETCLOSE ∧
            prevType ≠ some .PARENCLOSE) then
        let tpA := { tp2 with state := .t .ARRAYOPEN :: tp2.state,
                              filterApplyIdx := tp2.out.length :: tp2.filterApplyIdx }
        .ok { tpA with out := tpA.out ++ ["["] }
      else
        .ok { tp2 with state := .t .BRACKETOPEN :: tp2.state,
                       out := tp2.out ++ ["["] }
  | .BRACKETCLOSE =>
      match tp2.state with
      | [] => .error (.swig "Unexpected closing square bracket" tp2.line tp2.filename)
      | top :: rest =>
          if top ≠ .t .BRACKETOPEN ∧ top ≠ .t .ARRAYOPEN then
            .error (.swig "Unexpected closing square bracket" tp2.line tp2.filename)
          else
            .ok { tp2 with state := rest, out := tp2.out ++ ["]"],
                           filterApplyIdx := tp2.filterApplyIdx.tail }
  | .CURLYOPEN =>
      let tpA := { tp2 with state := .t .CURLYOPEN :: tp2.state,
                            out := tp2.out ++ ["\x7b"] }
      .ok { tpA with filterApplyIdx := (tpA.out.length - 1) :: tpA.filterApplyIdx }
  | .COLON =>
      if lastState ≠ some (.t .CURLYOPEN) then
        .error (.swig "Unexpected colon" tp2.line tp2.filename)
      else
        .ok { tp2 with state := .t .COLON :: tp2.state,
                       out := tp2.out ++ [":"],
                       filterApplyIdx := tp2.filterApplyIdx.tail }
  | .CURLYCLOSE =>
      let tpA := if lastState = some (.t .COLON) then
                   { tp2 with state := tp2.state.tail }
                 else tp2
      match tpA.state with
      | [] => .error (.swig "Unexpected closing curly brace" tpA.line tpA.filename)
      | top :: rest =>
          if top ≠ .t .CURLYOPEN then
            .error (.swig "Unexpected closing curly brace" tpA.line tpA.filename)
          else
            .ok { tpA with state := rest, out := tpA.out ++ ["\x7d"],
                           filterApplyIdx := tpA.filterApplyIdx.tail }
  | .DOTKEY =>
      match prevTok with
      | none => .error (.swig ("Unexpected key \"" ++ m ++ "\"") tp2.line tp2.filename)
      | some pt =>
          if ¬ dotkeyAllowedPrev pt.type then
            .error (.swig ("Unexpected key \"" ++ m ++ "\"") tp2.line tp2.filename)
          else .ok { tp2 with out := tp2.out ++ ["." ++ m] }
  | .OPERATOR =>
      .ok { tp2 with out := tp2.out ++ [" " ++ m ++ " "],
                     filterApplyIdx := tp2.filterApplyIdx.tail }
  -- METHODOPEN / ARRAYOPEN / UNKNOWN have no `case` in the switch.
  | .METHODOPEN => .ok tp2
  | .ARRAYOPEN => .ok tp2
  | .UNKNOWN => .ok tp2

/-- The default handling of one token: the pre-switch adjustments
(parser.ts:185-201) followed by the `switch` (parser.ts:203-388).
`prevTok` and `lastState` are the values read at the top of `parseToken`
(parser.ts:172-176), before any custom per-token handler ran. -/
def parseTokenCore (prevTok : Option LexerToken) (lastState : Option StackVal)
    (tp0 : TP) (tok : LexerToken) : Except Err TP :=
  parseTokenSwitch prevTok lastState tok
    (preSwitchAdjust (prevTok.map (·.type)) lastState tok.type tp0)

/-! ## Custom per-token handlers and the parse driver (parser.ts:103-162) -/

/-- The `parsers` table a tag's `parse` phase may populate through
`TokenParser.on` (parser.ts:160-162): per-kind handlers, a `'*'`
fallback, and `start`/`end` hooks. A per-token handler returns the
updated session and whether to fall through to the default handling
(JavaScript: a truthy return value). -/
structure Handlers where
  onStart : Option (TP → Except Err TP)
  onEnd : Option (TP → Except Err TP)
  onType : TokType → Option (TP → LexerToken → Except Err (TP × Bool))
  onStar : Option (TP → LexerToken → Except Err (TP × Bool))

/-- A session with no custom handlers (every variable-output expression;
parser.ts:494-511 registers none). -/
def emptyHandlers : Handlers :=
  { onStart := none, onEnd := none, onType := fun _ => none, onStar := none }

/-- `TokenParser.parseToken` (parser.ts:170-183 plus the default
handling): `fn = this.parsers[token.type] || this.parsers['*']`; a falsy
handler result suppresses the default handling. `prevToken` and the
nesting-state top are read before the handler runs. -/
def parseToken (h : Handlers) (tp : TP) (tok : LexerToken) : Except Err TP :=
  let prevTok := tp.prevToken
  let lastState := tp.state.head?
  match (h.onType tok.type).orElse (fun _ => h.onStar) with
  | none => parseTokenCore prevTok lastState tp tok
  | some f => do
      let (tp1, cont) ← f tp tok
      if cont then parseTokenCore prevTok lastState tp1 tok else .ok tp1

/-- The previous non-whitespace token for position `i` (parser.ts:110-117):
`tokens[i-1]`, stepping back over whitespace; if the walk steps past the
front of the array the source reads `.type` of `undefined`, a
TypeError. -/
def prevNonWsGo (toks : List LexerToken) : Nat → Except Err (Option LexerToken)
  | 0 =>
      match toks[0]? with
      | none => .ok none
      | some t => if t.type = .WHITESAPCE then .error .typeErr else .ok (some t)
  | j + 1 =>
      match toks[j + 1]? with
      | none => .ok none
      | some t => if t.type = .WHITESAPCE then prevNonWsGo toks j else .ok (some t)

def prevNonWs (toks : List LexerToken) : Nat → Except Err (Option LexerToken)
  | 0 => .ok none
  | j + 1 => prevNonWsGo toks j

/-- Run an optional `start`/`end` hook. -/
def runOpt (o : Option (TP → Except Err TP)) (tp : TP) : Except Err TP :=
  match o with
  | none => .ok tp
  | some f => f tp

/-- The token loop of `TokenParser.parse` (parser.ts:109-120): `rem` is
the remaining suffix of the full token list `toks` starting at index `i`;
for each token, `this.prevToken` is set to the previous non-whitespace
token and `parseToken` is invoked. -/
def processAux (h : Handlers) (toks : List LexerToken) :
    List LexerToken → Nat → TP → Except Err TP
  | [], _, tp => .ok tp
  | t :: rest, i, tp => do
      let pt ← prevNonWs toks i
      let tp1 ← parseToken h { tp with prevToken := pt } t
      processAux h toks rest (i + 1) tp1

/-- The implicit trailing escape step of `TokenParser.parse`
(parser.ts:125-135): when the escape flag is still truthy, the
insertion-point stack is reset to `[0]` and an `e` filter application is
fed back through `parseToken` — as a four-token explicit call when the
escape mode is a string, as a bare `FILTEREMPTY` otherwise. -/
def escTrailer (h : Handlers) (tp : TP) : Except Err TP :=
  if tp.escape.truthy then
    let tpA := { tp with filterApplyIdx := [0] }
    match tp.escape with
    | .s _ => do
        let tp1 ← parseToken h tpA ⟨.FILTER, "e"⟩
        let tp2 ← parseToken h tp1 ⟨.COMMA, ","⟩
        let tp3 ← parseToken h tp2 ⟨.STRING, tpA.autoescape.toStr⟩
        parseToken h tp3 ⟨.PARENCLOSE, ")"⟩
    | _ => parseToken h tpA ⟨.FILTEREMPTY, "e"⟩
  else .ok tp

/-- `TokenParser.parse` (parser.ts:103-138): `start` hook, token loop,
`end` hook, then the trailing escape step. -/
def tokenParserParse (h : Handlers) (tp : TP) (toks : List LexerToken) :
    Except Err TP := do
  let tp0 ← runOpt h.onStart tp
  let tp1 ← processAux h toks toks 0 tp0
  let tp2 ← runOpt h.onEnd tp1
  escTrailer h tp2

/-- The parse pipeline as the spec describes it for tag argument lists
(section 4.2 with section 4.1's escape rule disabled): identical to
`tokenParserParse` but with no trailing escape step. Defined for
comparison with `tokenParserParse`; not a translation of the source. -/
def tokenParserParseNoEscape (h : Handlers) (tp : TP) (toks : List LexerToken) :
    Except Err TP := do
  let tp0 ← runOpt h.onStart tp
  let tp1 ← processAux h toks toks 0 tp0
  runOpt h.onEnd tp1

/-- `parseVariable` (parser.ts:494-511): a fresh `TokenParser` over the
variable's tokens with the template's current escape setting and no
custom handlers; a non-empty nesting state after parsing is the
`Unable to parse` error; otherwise the compiled statement is
`'_output +=' + out.join('') + ';\n'`. The lexing of `str` into `toks` is
external (spec, section 6). -/
def parseVariableModel (str : String) (toks : List LexerToken)
    (filters : Filters) (escape : Esc) (line : Nat) (filename : Option String) :
    Except Err String := do
  let tp ← tokenParserParse emptyHandlers (mkParser filters escape line filename) toks
  if tp.state.length ≠ 0 then
    .error (.swig ("Unable to parse \"" ++ str ++ "\"") line filename)
  else
    .ok ("_output +=" ++ String.join tp.out ++ ";\n")

/-- The `TokenParser` that `parseTag` constructs for a tag's argument list
(parser.ts:555): auto-escaping is passed as the literal `false`,
regardless of the template's current escape setting. -/
def mkTagArgParser (filters : Filters) (line : Nat) (filename : Option String) : TP :=
  mkParser filters (.b false) line filename

/-! ## The loop tag (src/tags/for.ts)

`compile` (for.ts:48-83) emits an IIFE; the definitions below interpret
that emitted program over an explicit render context. The context `_ctx`
is the association list `Ctx`; the loop-metadata object lives in it under
the key `"loop"` (`ctxloop = '_ctx.loop'`, for.ts:3-4). The cache variable
(`_ctx__loopcache<random>`, for.ts:51) is a local of the emitted closure,
modelled by the three saved values below; its randomised name only names
that local and has no other semantic role. -/

abbrev Ctx := List (String × Js)

/-- Read `_ctx.k`: a missing property reads as `undefined`. -/
def ctxGet (c : Ctx) (k : String) : Js := (assocGet c k).getD .undefined

/-- Write `_ctx.k = v`. -/
def ctxSet (c : Ctx) (k : String) (v : Js) : Ctx := assocSet c k v

/-- `_ctx.loop.<field> += d` (for.ts:75): reads `_ctx.loop` (a TypeError
if the body left it `undefined`/`null`), adds on the field (NaN on
non-numbers) and writes it back. -/
def loopFieldAdd (c : Ctx) (field : String) (d : Int) : Except Err Ctx := do
  let lv := ctxGet c "loop"
  let old ← getProp lv field
  let lv' ← jsSetProp lv field (jsAdd old d)
  .ok (ctxSet c "loop" lv')

/-- The loop-metadata object created at loop entry (for.ts:67):
`{first: false, index: 1, index0: 0, revindex: __len, revindex0: __len - 1,
length: __len, last: false}` (no `key` field yet). -/
def loopInit (len : Int) : Js :=
  .obj [("first", .b false), ("index", .num 1), ("index0", .num 0),
        ("revindex", .num len), ("revindex0", .num (len - 1)),
        ("length", .num len), ("last", .b false)]

/-- One iteration of the emitted `_utils.each` callback (for.ts:68-75) for
a mapping entry `(key, value)`: bind the value and key names in `_ctx`,
set `loop.key`, recompute `loop.first` from `index0` and `loop.last` from
`revindex0`, run the body, then advance the four counters. The returned
`Js` is the value of `_ctx.loop` as the body saw it (observation only). -/
def forIterStep (body : Ctx → Except Err Ctx) (valN keyN : String)
    (entry : String × Js) (c : Ctx) : Except Err (Ctx × Js) := do
  let c1 := ctxSet c valN entry.2
  let c2 := ctxSet c1 keyN (.str entry.1)
  let lv := ctxGet c2 "loop"
  let lv1 ← jsSetProp lv "key" (.str entry.1)
  let i0 ← getProp lv1 "index0"
  let lv2 ← jsSetProp lv1 "first" (.b i0.eqZero)
  let r0 ← getProp lv2 "revindex0"
  let lv3 ← jsSetProp lv2 "last" (.b r0.eqZero)
  let c3 := ctxSet c2 "loop" lv3
  let c4 ← body c3
  let c5 ← loopFieldAdd c4 "index" 1
  let c6 ← loopFieldAdd c5 "index0" 1
  let c7 ← loopFieldAdd c6 "revindex" (-1)
  let c8 ← loopFieldAdd c7 "revindex0" (-1)
  .ok (c8, ctxGet c3 "loop")

/-- The `_utils.each` fold over the subject's entries, collecting the
metadata observed at each body entry. -/
def forIterAll (body : Ctx → Except Err Ctx) (valN keyN : String) :
    List (String × Js) → Ctx → Except Err (Ctx × List Js)
  | [], c => .ok (c, [])
  | e :: rest, c => do
      let (c1, ob) ← forIterStep body valN keyN e c
      let (c2, obs) ← forIterAll body valN keyN rest c1
      .ok (c2, ob :: obs)

/-- The entries `_utils.each` iterates for a mapping subject: its own
fields in insertion order (spec, section 4.3; `utils.each` is modelled
from the spec). The claims under verification only iterate mappings, so
other subjects contribute no entries here. -/
def entriesOf : Js → List (String × Js)
  | .obj fs => fs
  | _ => []

/-- `__len` (for.ts:64): `keys(__l).length` for a mapping (`utils.keys` is
modelled from the spec: `[]` on a falsy subject). -/
def lenOf : Js → Int
  | .obj fs => fs.length
  | .str s => s.length
  | _ => 0

/-- The emitted loop IIFE (for.ts:62-82): compute the length; return
immediately on a falsy subject (line 65); save the current bindings of
`loop`, the value name and the key name (line 66, read before anything is
overwritten); install fresh metadata (line 67); iterate (lines 68-76);
restore the three saved bindings exactly (lines 77-79). Also returns the
list of metadata values observed by the body (observation only). -/
def forLoopRun (body : Ctx → Except Err Ctx) (valN keyN : String)
    (subj : Js) (c : Ctx) : Except Err (Ctx × List Js) :=
  if subj.truthy = false then .ok (c, [])
  else
    match forIterAll body valN keyN (entriesOf subj)
        (ctxSet c "loop" (loopInit (lenOf subj))) with
    | .error e => .error e
    | .ok (c1, obs) =>
        -- the cache object was built from `c` before `_ctx.loop` was
        -- overwritten (for.ts:66), so the three restores (for.ts:77-79)
        -- write back the values read from the original context
        .ok (ctxSet (ctxSet (ctxSet c1 "loop" (ctxGet c "loop"))
              valN (ctxGet c valN)) keyN (ctxGet c keyN), obs)

/-- The argument split of the loop tag's `compile` (for.ts:49-60): first
argument is the value name (key name defaults to `__k`); a `,` promotes it
to the key name and takes the next argument as the value name; the rest,
joined, is the iterable expression. -/
def forArgsSplit (args : List String) : String × String × String :=
  let val := args.headD ""
  let rest := args.tail
  if rest.headD "" = "," then
    let key := val
    let val2 := rest.tail.headD ""
    (val2, key, String.join rest.tail.tail)
  else
    (val, "__k", String.join rest)

/-! ## The conditional-else tag (src/unnamed/part_000) -/

/-- An entry of the open-block stack, as far as the else tag inspects it
(`stack[stack.length - 1].name`, part_000:26). -/
structure TagFrame where
  name : String
  deriving DecidableEq, Repr

/-- The error text of the else tag's `'*'` handler (part_000:23). -/
def elseErrMsg (m : String) (line : Nat) : String :=
  "\"else\" tag does not accept any tokens. Found \"" ++ m ++ "\" on line " ++
    toString line ++ "."

/-- The handler table the else tag's `parse` registers (part_000:22-24):
a single `'*'` handler that throws for every token kind. -/
def elseHandlers (line : Nat) : Handlers :=
  { onStart := none, onEnd := none, onType := fun _ => none,
    onStar := some (fun _ tok => .error (.thrown (elseErrMsg tok.mtch line))) }

/-- Modelled from the spec: the lexer's runtime `types` value (the closed
token-kind enumeration of spec section 3), a plain object mapping kind
names to numeric codes. It is what `parseTag` passes as the fourth
argument `_t` (parser.ts:558). It is not an array: it has no `length`
property. -/
def typesTable : Js :=
  .obj [("WHITESAPCE", .num 0), ("STRING", .num 1), ("NUMBER", .num 2),
        ("BOOL", .num 3), ("FILTER", .num 4), ("FILTEREMPTY", .num 5),
        ("FUNCTION", .num 6), ("FUNCTIONEMPTY", .num 7), ("PARENOPEN", .num 8),
        ("PARENCLOSE", .num 9), ("COMMA", .num 10), ("COLON", .num 11),
        ("LOGIC", .num 12), ("COMPARATOR", .num 13), ("NOT", .num 14),
        ("OPERATOR", .num 15), ("VAR", .num 16), ("DOTKEY", .num 17),
        ("BRACKETOPEN", .num 18), ("BRACKETCLOSE", .num 19),
        ("CURLYOPEN", .num 20), ("CURLYCLOSE", .num 21),
        ("METHODOPEN", .num 22), ("ARRAYOPEN", .num 23), ("UNKNOWN", .num 24)]

/-- JavaScript conversion of a computed property key to a string:
`o[e]` reads the property named `String(e)`, so array indexing `stack[i]`
is a property read with the stringified index. -/
def jsKeyOf : Js → String
  | .num n => toString n
  | .str s => s
  | .b true => "true"
  | .b false => "false"
  | .null => "null"
  | .undefined => "undefined"
  | .nan => "NaN"
  | .obj _ => "[object Object]"

/-- `v === "s"` for a string literal `s`. -/
def jsStrictEqStr (v : Js) (s : String) : Bool :=
  match v with
  | .str t => t = s
  | _ => false

/-- A single open-block frame as the JS object `parseTag` stacks
(parser.ts:574-581), restricted to the `name` field the else tag reads. -/
def frameJs (f : TagFrame) : Js := .obj [("name", .str f.name)]

/-- The open-block stack as the JS array value `parseTag` maintains: for
property reads a JS array behaves as an object whose keys are the
stringified indices plus `length`, which is all the expression below
touches. -/
def stackJs (stack : List TagFrame) : Js :=
  .obj ((stack.enum.map fun p => (toString p.1, frameJs p.2)) ++
    [("length", .num stack.length)])

/-- The JS expression the else tag's `parse` returns (part_000:26),
`stack.length && stack[stack.length - 1].name === 'if'`, evaluated on
whatever value its `stack` parameter is bound to: `&&` yields the left
operand when it is falsy, otherwise the right comparison;
`stack[stack.length - 1]` is a property read with the stringified
index. -/
def elseParseCheck (stackArg : Js) : Except Err Js := do
  let len ← getProp stackArg "length"
  if len.truthy = false then .ok len
  else do
    let elem ← getProp stackArg (jsKeyOf (jsAdd len (-1)))
    let name ← getProp elem "name"
    .ok (.b (jsStrictEqStr name "if"))

/-- `parseTag`'s invocation of the else tag (parser.ts:556-560). The call
site passes `(chunks[1], line, parser, _t, stack, opts, swig)`, but
part_000:21 declares `parse(str, line, parser, stack)` — only four
parameters — so the tag's `stack` parameter is bound to the lexer's
`types` table `_t`, the fourth argument, not the open-block stack. A
falsy parse result is the `Unexpected tag` syntax error
(parser.ts:558-560); the open-block stack is not touched on this path. -/
def parseTagElse (line : Nat) (filename : Option String) : Except Err Unit :=
  match elseParseCheck typesTable with
  | .error e => .error e
  | .ok v =>
      if v.truthy then .ok ()
      else .error (.swig "Unexpected tag \"else\"" line filename)

/-! ## The partial-inclusion tag (src/unnamed/part_001) -/

/-- The state the include tag's `parse` keeps in its closure
(part_001:53): the captured file reference and the `with` flag, alongside
the shared session. -/
structure IncState where
  tp : TP
  file : Option String
  w : Bool

/-- The include tag's per-token handlers (part_001:54-97), returning the
updated state and whether to fall through to the default handling. The
`STRING` handler captures the first string as the file reference; the
`VAR` handler implements the `with` / `only` / `ignore missing`
micro-grammar, where reading `this.prevToken.match` with no previous
token is a TypeError. Token kinds with no registered handler fall
through. -/
def includeTokenHandle (line : Nat) (st : IncState) (tok : LexerToken) :
    Except Err (IncState × Bool) :=
  match tok.type with
  | .STRING =>
      if st.file.isNone then
        .ok ({ st with file := some tok.mtch,
                       tp := { st.tp with out := st.tp.out ++ [tok.mtch] } }, false)
      else .ok (st, true)
  | .VAR =>
      if st.file.isNone then .ok ({ st with file := some tok.mtch }, true)
      else if st.w = false ∧ tok.mtch = "with" then .ok ({ st with w := true }, false)
      else
        -- part_001:75 — `w && token.match === only && this.prevToken.match !== 'with'`
        match (if st.w ∧ tok.mtch = "only" then
                 match st.tp.prevToken with
                 | none => some (Except.error (Err.typeErr))
                 | some pt =>
                     if pt.mtch ≠ "with" then
                       some (.ok ({ st with
                         tp := { st.tp with out := st.tp.out ++ [tok.mtch] } }, false))
                     else none
               else none) with
        | some r => r
        | none =>
          if tok.mtch = "ignore" then .ok (st, false)
          else if tok.mtch = "missing" then
            match st.tp.prevToken with
            | none => .error .typeErr
            | some pt =>
                if pt.mtch ≠ "ignore" then
                  .error (.thrown ("Unexpected token \"missing\" on line " ++
                    toString line ++ "."))
                else
                  .ok ({ st with
                    tp := { st.tp with out := st.tp.out ++ [tok.mtch] } }, false)
          else
            match st.tp.prevToken with
            | none => .error .typeErr
            | some pt =>
                if pt.mtch = "ignore" then
                  .error (.thrown ("Expected \"missing\" on line " ++
                    toString line ++ " but found \"" ++ tok.mtch ++ "\"."))
                else .ok (st, true)
  | _ => .ok (st, true)

/-- The token loop of `TokenParser.parse` for an include tag's argument
list: as `processAux`, but dispatching through the include handlers
first (`prevToken` and the nesting-state top are read before the handler
runs, as in parser.ts:172-176). -/
def includeParseAux (line : Nat) (toks : List LexerToken) :
    List LexerToken → Nat → IncState → Except Err IncState
  | [], _, st => .ok st
  | t :: rest, i, st => do
      let pt ← prevNonWs toks i
      let st1 : IncState := { st with tp := { st.tp with prevToken := pt } }
      let ls := st1.tp.state.head?
      let (st2, cont) ← includeTokenHandle line st1 t
      let tp' ← if cont then parseTokenCore pt ls st2.tp t else .ok st2.tp
      includeParseAux line toks rest (i + 1) { st2 with tp := tp' }

/-- `opts.filename || null` (part_001:100) evaluated on whatever value the
tag's `opts` parameter is bound to: `||` yields the left operand when it
is truthy, else the right operand `null`. -/
def includeEndHookValue (optsArg : Js) : Js :=
  if (getPropD optsArg "filename").truthy then getPropD optsArg "filename"
  else Js.null

/-- The full parse of an include tag's argument tokens: the tag-argument
parser (auto-escaping passed as `false`, and `opts.filename` as the
parser's file name — the real `opts`, parser.ts:555), the token loop with
the include handlers, then the `end` hook (part_001:99-101), which pushes
`opts.filename || null`. At the call site (parser.ts:558, arguments
`(chunks[1], line, parser, _t, stack, opts, swig)`) part_001:52's
five-parameter `parse(str, line, parser, stack, opts)` binds `opts` to
the open-block *stack* array, which has no `filename` property, so the
pushed value is always `null`. The `null` entry is modelled as `""`: its
only consumer is `compile`'s `(args.pop() || '')` (part_001:39), which
coerces both to `''`, and no other step inspects that entry. The escape
trailer is skipped because the escape flag is `false` throughout. -/
def includeParseRun (line : Nat) (filename : Option String) (filters : Filters)
    (toks : List LexerToken) : Except Err TP := do
  let st ← includeParseAux line toks toks 0
    ⟨mkTagArgParser filters line filename, none, false⟩
  let tp1 := { st.tp with out := st.tp.out ++ [""] }
  escTrailer emptyHandlers tp1

/-- The decomposition `compile` (part_001:35-41) performs on the parsed
argument list. -/
structure IncSpec where
  file : String
  parentFile : String
  w : String
  onlyCtx : Bool
  ignore : Bool
  deriving DecidableEq, Repr

/-- `compile`'s argument scan (part_001:36-41): shift the file reference;
remove an `only` modifier if present; pop the parent file (appended by the
`end` hook, `|| ''`, backslashes doubled); pop a trailing `missing` as the
ignore flag; join the remainder as the `with` expression. -/
def includeCompileSpec (args : List String) : IncSpec :=
  let file := args.headD ""
  let rest := args.tail
  let onlyCtx := rest.contains "only"
  let rest2 := if onlyCtx then rest.erase "only" else rest
  let parentFile := jsEscapeBackslash (rest2.getLast?.getD "")
  let rest3 := rest2.dropLast
  let ignore := rest3.getLast? = some "missing"
  let rest4 := if ignore then rest3.dropLast else rest3
  { file := file, parentFile := parentFile, w := String.join rest4,
    onlyCtx := onlyCtx, ignore := ignore }

/-- The context argument the emitted call passes to the compiled partial
(part_001:47): the `with` object alone under `only`, the ambient context
when there is no `with` clause, and the `with` object merged over the
ambient context otherwise. -/
inductive IncCtxArg where
  | withOnly (w : String)
  | ambient
  | merged (w : String)
  deriving DecidableEq, Repr

def includeCtxArg (spec : IncSpec) : IncCtxArg :=
  if spec.onlyCtx ∧ spec.w ≠ "" then .withOnly spec.w
  else if spec.w = "" then .ambient
  else .merged spec.w

/-- The emitted include fragment (part_001:43-49) at render time:
`_swig.compileFile(file, {resolveFrom: parentFile})` resolves and compiles
the referenced template (spec, section 6; failures are the resolver's
errors), the result is applied to the chosen context, and with the
`ignore` flag the whole statement is wrapped in `try { ... } catch (e) {}`,
turning any failure into no output. -/
def includeRender (spec : IncSpec)
    (resolver : String → String → Except Err (IncCtxArg → String)) :
    Except Err String :=
  match resolver spec.file spec.parentFile with
  | .error e => if spec.ignore then .ok "" else .error e
  | .ok render => .ok (render (includeCtxArg spec))

/-! ## Fixtures and observation helpers used by the theorems below -/

/-- Unwrap an `ok` session, with a fallback for the error case (used only
to *name* the successful result of a concrete run inside theorem
statements). -/
def okOr (r : Except Err TP) (d : TP) : TP :=
  match r with
  | .ok tp => tp
  | .error _ => d

/-- Unwrap an `ok` loop run (context component). -/
def okCtxOr (r : Except Err (Ctx × List Js)) (d : Ctx) : Ctx :=
  match r with
  | .ok p => p.1
  | .error _ => d

def isOkE : Except Err TP → Bool
  | .ok _ => true
  | .error _ => false

def isOkCtx : Except Err (Ctx × List Js) → Bool
  | .ok _ => true
  | .error _ => false

/-- Unwrap an `ok` loop run (observation component). -/
def okObsOr (r : Except Err (Ctx × List Js)) : List Js :=
  match r with
  | .ok p => p.2
  | .error _ => []

/-- A default session used as the fallback of `okOr`. -/
def tpD : TP := mkParser [] (.b false) 1 none

/-- A handler table that cannot turn a disabled escape flag back on: every
installed handler preserves `escape = false` on success. The repository's
tag handlers (loop, else, include) only touch `out`, `state`,
`filterApplyIdx` and the closure state, so they satisfy this. -/
def EscPreserving (h : Handlers) : Prop :=
  (∀ f, h.onStart = some f → ∀ tp tp', tp.escape = .b false → f tp = .ok tp' →
    tp'.escape = .b false) ∧
  (∀ f, h.onEnd = some f → ∀ tp tp', tp.escape = .b false → f tp = .ok tp' →
    tp'.escape = .b false) ∧
  (∀ ty f, h.onType ty = some f → ∀ tp tok tp' c, tp.escape = .b false →
    f tp tok = .ok (tp', c) → tp'.escape = .b false) ∧
  (∀ f, h.onStar = some f → ∀ tp tok tp' c, tp.escape = .b false →
    f tp tok = .ok (tp', c) → tp'.escape = .b false)

/-- Token stream of `{{ "s" }}` (one string literal). -/
def c3Toks : List LexerToken := [⟨.STRING, "\"s\""⟩]

/-- Token stream of `{{ "s"|a|b(2) }}`: a bare filter (`FILTEREMPTY`)
followed by a filter with an explicit argument list. -/
def c4Toks : List LexerToken :=
  [⟨.STRING, "\"s\""⟩, ⟨.FILTEREMPTY, "a"⟩, ⟨.FILTER, "b"⟩,
   ⟨.NUMBER, "2"⟩, ⟨.PARENCLOSE, ")"⟩]

/-- Two plain (non-safe) filters `a` and `b`. -/
def c4Filters : Filters := [("a", false), ("b", false)]

/-- The two-key mapping `{one: "hi", two: "bye"}`. -/
def c6Subj : Js := .obj [("one", .str "hi"), ("two", .str "bye")]

/-- An inner loop reusing the same value name `x` and key name `__k` as
the outer loop, used as the body of an outer loop. -/
def c7InnerBody : Ctx → Except Err Ctx := fun c =>
  match forLoopRun (fun d => .ok d) "x" "__k" (.obj [("in1", .num 7)]) c with
  | .ok r => .ok r.1
  | .error e => .error e

/-- A concrete outer context for the nested-loop run. -/
def c7Ctx : Ctx := [("x", .num 42), ("keep", .str "z")]

/-- The nested loop run: outer loop over a two-key mapping whose body is
`c7InnerBody`, over `c7Ctx`. -/
def c7Run : Except Err (Ctx × List Js) :=
  forLoopRun c7InnerBody "x" "__k" c6Subj c7Ctx

/-- Token stream of `include "missing.html" ignore missing` (with the
whitespace tokens the lexer interleaves). -/
def c9ToksIgnore : List LexerToken :=
  [⟨.STRING, "\"missing.html\""⟩, ⟨.WHITESAPCE, " "⟩, ⟨.VAR, "ignore"⟩,
   ⟨.WHITESAPCE, " "⟩, ⟨.VAR, "missing"⟩]

/-- Token stream of `include "missing.html"`. -/
def c9ToksPlain : List LexerToken := [⟨.STRING, "\"missing.html\""⟩]

/-- Token stream of `include "missing.html" missing` (the modifier word
without a preceding `ignore`). -/
def c9ToksStray : List LexerToken :=
  [⟨.STRING, "\"missing.html\""⟩, ⟨.WHITESAPCE, " "⟩, ⟨.VAR, "missing"⟩]

/-- The compile decomposition expected for
`include "missing.html" ignore missing`: the ignore flag is set; the
parent file is empty because the mis-bound `end` hook pushes `null`
(see `includeParseRun`), coerced to `''` by `compile`. -/
def c9SpecIgnore : IncSpec :=
  { file := "\"missing.html\"", parentFile := "", w := "",
    onlyCtx := false, ignore := true }

/-- The compile decomposition expected for the same include without the
modifier. -/
def c9SpecPlain : IncSpec :=
  { file := "\"missing.html\"", parentFile := "", w := "",
    onlyCtx := false, ignore := false }

/-- A resolver that fails for every file (a missing template). -/
def failResolver (e : Err) : String → String → Except Err (IncCtxArg → String) :=
  fun _ _ => .error e

/-! ## Helper lemmas -/

theorem jsNeqNegOne_indexOfMember (s : String) :
    jsNeqNegOne (indexOfMember s) = true := by
  unfold indexOfMember
  split_ifs <;> simp [jsNeqNegOne]

theorem parseVarTP_always_error (tp : TP) (m : String) (ls : Option StackVal) :
    parseVarTP tp m ls = .error (.swig
      ("Reserved keyword \"" ++ (parseVarMatchArr m).headD "" ++
        "\" attempted to be used as a variable") tp.line tp.filename) := by
  simp [parseVarTP, jsNeqNegOne_indexOfMember]

theorem preSwitchAdjust_escape (a : Option TokType) (b : Option StackVal)
    (c : TokType) (tp : TP) : (preSwitchAdjust a b c tp).escape = tp.escape := by
  unfold preSwitchAdjust
  split_ifs <;> rfl

set_option maxHeartbeats 1000000 in
theorem parseTokenSwitch_escOff {pt : Option LexerToken} {ls : Option StackVal}
    {tok : LexerToken} {tp2 : TP} {tp' : TP}
    (h0 : tp2.escape = Esc.b false)
    (he : parseTokenSwitch pt ls tok tp2 = .ok tp') : tp'.escape = Esc.b false := by
  obtain ⟨ty, m⟩ := tok
  unfold parseTokenSwitch at he
  cases ty <;> simp only at he <;>
    (try rw [parseVarTP_always_error] at he) <;>
    (repeat' split at he) <;>
    (try simp at he) <;> (try subst he) <;> simp_all

theorem parseTokenCore_escOff {pt : Option LexerToken} {ls : Option StackVal}
    {tp : TP} {tok : LexerToken} {tp' : TP}
    (h0 : tp.escape = Esc.b false)
    (he : parseTokenCore pt ls tp tok = .ok tp') : tp'.escape = Esc.b false := by
  unfold parseTokenCore at he
  exact parseTokenSwitch_escOff (by rw [preSwitchAdjust_escape]; exact h0) he

theorem parseToken_escOff {h : Handlers} (hp : EscPreserving h)
    {tp : TP} {tok : LexerToken} {tp' : TP}
    (h0 : tp.escape = Esc.b false)
    (he : parseToken h tp tok = .ok tp') : tp'.escape = Esc.b false := by
  unfold parseToken at he
  cases hht : h.onType tok.type with
  | some f =>
      simp only [hht, Option.orElse] at he
      cases hf : f tp tok with
      | error e => simp only [hf, bind, Except.bind] at he; exact (Except.noConfusion he)
      | ok p =>
          obtain ⟨tp1, c⟩ := p
          have h1 : tp1.escape = Esc.b false := hp.2.2.1 _ f hht tp tok tp1 c h0 hf
          simp only [hf, bind, Except.bind] at he
          cases c with
          | true => simp only [if_true] at he; exact parseTokenCore_escOff h1 he
          | false =>
              simp only [Bool.false_eq_true, if_false, Except.ok.injEq] at he
              rw [← he]; exact h1
  | none =>
      cases hhs : h.onStar with
      | some f =>
          simp only [hht, hhs, Option.orElse] at he
          cases hf : f tp tok with
          | error e => simp only [hf, bind, Except.bind] at he; exact (Except.noConfusion he)
          | ok p =>
              obtain ⟨tp1, c⟩ := p
              have h1 : tp1.escape = Esc.b false := hp.2.2.2 f hhs tp tok tp1 c h0 hf
              simp only [hf, bind, Except.bind] at he
              cases c with
              | true => simp only [if_true] at he; exact parseTokenCore_escOff h1 he
              | false =>
                  simp only [Bool.false_eq_true, if_false, Except.ok.injEq] at he
                  rw [← he]; exact h1
      | none =>
          simp only [hht, hhs, Option.orElse] at he
          exact parseTokenCore_escOff h0 he

theorem processAux_escOff {h : Handlers} (hp : EscPreserving h)
    (toks : List LexerToken) :
    ∀ (rem : List LexerToken) (i : Nat) (tp tp' : TP),
      tp.escape = Esc.b false → processAux h toks rem i tp = .ok tp' →
      tp'.escape = Esc.b false := by
  intro rem
  induction rem with
  | nil =>
      intro i tp tp' h0 he
      simp only [processAux, Except.ok.injEq] at he
      rw [← he]; exact h0
  | cons t rest ih =>
      intro i tp tp' h0 he
      simp only [processAux] at he
      cases hpv : prevNonWs toks i with
      | error e => simp only [hpv, bind, Except.bind] at he; exact (Except.noConfusion he)
      | ok pt =>
          simp only [hpv, bind, Except.bind] at he
          cases hp1 : parseToken h { tp with prevToken := pt } t with
          | error e => simp only [hp1, bind, Except.bind] at he; exact (Except.noConfusion he)
          | ok tp1 =>
              simp only [hp1, bind, Except.bind] at he
              have h1 : tp1.escape = Esc.b false :=
                parseToken_escOff hp
                  (show ({ tp with prevToken := pt } : TP).escape = Esc.b false from h0) hp1
              exact ih (i + 1) tp1 tp' h1 he

theorem runOpt_escOff {o : Option (TP → Except Err TP)}
    (hpres : ∀ f, o = some f → ∀ tp tp', tp.escape = Esc.b false → f tp = .ok tp' →
      tp'.escape = Esc.b false)
    {tp tp' : TP} (h0 : tp.escape = Esc.b false) (he : runOpt o tp = .ok tp') :
    tp'.escape = Esc.b false := by
  cases ho : o with
  | none =>
      rw [ho] at he
      simp only [runOpt, Except.ok.injEq] at he
      rw [← he]; exact h0
  | some f =>
      rw [ho] at he
      simp only [runOpt] at he
      exact hpres f ho tp tp' h0 he

theorem escTrailer_off {h : Handlers} {tp : TP} (h0 : tp.escape = Esc.b false) :
    escTrailer h tp = .ok tp := by
  simp [escTrailer, h0, Esc.truthy]

theorem tokenParserParse_escOff {h : Handlers} (hp : EscPreserving h)
    {tp : TP} {toks : List LexerToken} {tp' : TP}
    (h0 : tp.escape = Esc.b false)
    (he : tokenParserParse h tp toks = .ok tp') : tp'.escape = Esc.b false := by
  simp only [tokenParserParse] at he
  cases h1 : runOpt h.onStart tp with
  | error e => simp only [h1, bind, Except.bind] at he; exact (Except.noConfusion he)
  | ok tpa =>
      simp only [h1, bind, Except.bind] at he
      have ha : tpa.escape = Esc.b false := runOpt_escOff hp.1 h0 h1
      cases h2 : processAux h toks toks 0 tpa with
      | error e => simp only [h2, bind, Except.bind] at he; exact (Except.noConfusion he)
      | ok tpb =>
          simp only [h2, bind, Except.bind] at he
          have hb : tpb.escape = Esc.b false := processAux_escOff hp toks toks 0 tpa tpb ha h2
          cases h3 : runOpt h.onEnd tpb with
          | error e => simp only [h3, bind, Except.bind] at he; exact (Except.noConfusion he)
          | ok tpc =>
              simp only [h3, bind, Except.bind] at he
              have hc : tpc.escape = Esc.b false := runOpt_escOff hp.2.1 hb h3
              rw [escTrailer_off hc] at he
              cases he
              exact hc

theorem bind_ok {α β : Type} {x : Except Err α} {f : α → Except Err β} {b : β}
    (h : (x >>= f) = .ok b) : ∃ a, x = .ok a ∧ f a = .ok b := by
  cases x with
  | error e => simp [bind, Except.bind] at h
  | ok a => exact ⟨a, rfl, by simpa [bind, Except.bind] using h⟩

theorem preSwitchAdjust_filters (a : Option TokType) (b : Option StackVal)
    (c : TokType) (tp : TP) : (preSwitchAdjust a b c tp).filters = tp.filters := by
  unfold preSwitchAdjust
  split_ifs <;> rfl

theorem emptyEscPreserving : EscPreserving emptyHandlers := by
  refine ⟨?_, ?_, ?_, ?_⟩
  · intro f hf; simp [emptyHandlers] at hf
  · intro f hf; simp [emptyHandlers] at hf
  · intro ty f hf; simp [emptyHandlers] at hf
  · intro f hf; simp [emptyHandlers] at hf

theorem tokenParserParse_tagEqNoEscape {h : Handlers} (hp : EscPreserving h)
    {tp : TP} (h0 : tp.escape = Esc.b false) (toks : List LexerToken) :
    tokenParserParse h tp toks = tokenParserParseNoEscape h tp toks := by
  simp only [tokenParserParse, tokenParserParseNoEscape]
  cases h1 : runOpt h.onStart tp with
  | error e => simp [h1, bind, Except.bind]
  | ok tpa =>
      have ha : tpa.escape = Esc.b false := runOpt_escOff hp.1 h0 h1
      cases h2 : processAux h toks toks 0 tpa with
      | error e => simp [h1, h2, bind, Except.bind]
      | ok tpb =>
          have hb : tpb.escape = Esc.b false := processAux_escOff hp toks toks 0 tpa tpb ha h2
          cases h3 : runOpt h.onEnd tpb with
          | error e => simp [h1, h2, h3, bind, Except.bind]
          | ok tpc =>
              have hc : tpc.escape = Esc.b false := runOpt_escOff hp.2.1 hb h3
              simp [h1, h2, h3, bind, Except.bind, escTrailer_off hc]

theorem ctxGet_set_same (c : Ctx) (k : String) (v : Js) :
    ctxGet (ctxSet c k v) k = v := by
  induction c with
  | nil => simp [ctxGet, ctxSet, assocGet, assocSet]
  | cons e rest ih =>
      obtain ⟨k1, v1⟩ := e
      by_cases h1 : k1 = k
      · simp [ctxGet, ctxSet, assocSet, assocGet, h1]
      · simp only [ctxGet, ctxSet, assocSet, if_neg h1, assocGet]
        simpa only [ctxGet, ctxSet] using ih

theorem ctxGet_set_ne (c : Ctx) {k k' : String} (h : k' ≠ k) (v : Js) :
    ctxGet (ctxSet c k v) k' = ctxGet c k' := by
  induction c with
  | nil => simp [ctxGet, ctxSet, assocGet, assocSet, Ne.symm h]
  | cons e rest ih =>
      obtain ⟨k1, v1⟩ := e
      by_cases h1 : k1 = k
      · subst h1
        simp [ctxGet, ctxSet, assocSet, assocGet, Ne.symm h]
      · by_cases h2 : k1 = k'
        · subst h2
          simp [ctxGet, ctxSet, assocSet, assocGet, h1]
        · simp only [ctxGet, ctxSet, assocSet, if_neg h1, assocGet, if_neg h2]
          simpa only [ctxGet, ctxSet, assocGet, if_neg h2] using ih

theorem loopFieldAdd_frame {c : Ctx} {f : String} {d : Int} {c' : Ctx}
    {k : String} (hk : k ≠ "loop") (he : loopFieldAdd c f d = .ok c') :
    ctxGet c' k = ctxGet c k := by
  unfold loopFieldAdd at he
  obtain ⟨old, h1, he⟩ := bind_ok he
  obtain ⟨lv', h2, he⟩ := bind_ok he
  simp only [Except.ok.injEq] at he
  rw [← he]
  exact ctxGet_set_ne _ hk _

theorem forIterStep_frame {body : Ctx → Except Err Ctx} {valN keyN : String}
    {entry : String × Js} {c c' : Ctx} {ob : Js} {k : String}
    (hk1 : k ≠ valN) (hk2 : k ≠ keyN) (hk3 : k ≠ "loop")
    (hbody : ∀ d d', body d = .ok d' → ctxGet d' k = ctxGet d k)
    (he : forIterStep body valN keyN entry c = .ok (c', ob)) :
    ctxGet c' k = ctxGet c k := by
  unfold forIterStep at he
  obtain ⟨lv1, h1, he⟩ := bind_ok he
  obtain ⟨i0, h2, he⟩ := bind_ok he
  obtain ⟨lv2, h3, he⟩ := bind_ok he
  obtain ⟨r0, h4, he⟩ := bind_ok he
  obtain ⟨lv3, h5, he⟩ := bind_ok he
  obtain ⟨c4, h6, he⟩ := bind_ok he
  obtain ⟨c5, h7, he⟩ := bind_ok he
  obtain ⟨c6, h8, he⟩ := bind_ok he
  obtain ⟨c7, h9, he⟩ := bind_ok he
  obtain ⟨c8, h10, he⟩ := bind_ok he
  simp only [Except.ok.injEq, Prod.mk.injEq] at he
  rw [← he.1]
  calc ctxGet c8 k
      = ctxGet c7 k := loopFieldAdd_frame hk3 h10
    _ = ctxGet c6 k := loopFieldAdd_frame hk3 h9
    _ = ctxGet c5 k := loopFieldAdd_frame hk3 h8
    _ = ctxGet c4 k := loopFieldAdd_frame hk3 h7
    _ = ctxGet (ctxSet (ctxSet (ctxSet c valN entry.2) keyN (Js.str entry.1)) "loop" lv3) k := hbody _ _ h6
    _ = ctxGet c k := by
        rw [ctxGet_set_ne _ hk3 _, ctxGet_set_ne _ hk2 _, ctxGet_set_ne _ hk1 _]

theorem forIterAll_frame {body : Ctx → Except Err Ctx} {valN keyN : String}
    {k : String} (hk1 : k ≠ valN) (hk2 : k ≠ keyN) (hk3 : k ≠ "loop")
    (hbody : ∀ d d', body d = .ok d' → ctxGet d' k = ctxGet d k) :
    ∀ (entries : List (String × Js)) (c c' : Ctx) (obs : List Js),
      forIterAll body valN keyN entries c = .ok (c', obs) →
      ctxGet c' k = ctxGet c k := by
  intro entries
  induction entries with
  | nil =>
      intro c c' obs he
      simp only [forIterAll, Except.ok.injEq, Prod.mk.injEq] at he
      rw [← he.1]
  | cons e rest ih =>
      intro c c' obs he
      simp only [forIterAll] at he
      obtain ⟨p1, h1, he⟩ := bind_ok he
      obtain ⟨p2, h2, he⟩ := bind_ok he
      obtain ⟨c1, ob1⟩ := p1
      obtain ⟨c2, obs2⟩ := p2
      simp only [Except.ok.injEq, Prod.mk.injEq] at he
      rw [← he.1]
      calc ctxGet c2 k = ctxGet c1 k := ih c1 c2 obs2 h2
        _ = ctxGet c k := forIterStep_frame hk1 hk2 hk3 hbody h1

theorem ctxGet_restore (c1 c : Ctx) (valN keyN k : String)
    (hk : k = "loop" ∨ k = valN ∨ k = keyN) :
    ctxGet (ctxSet (ctxSet (ctxSet c1 "loop" (ctxGet c "loop")) valN (ctxGet c valN))
      keyN (ctxGet c keyN)) k = ctxGet c k := by
  by_cases h1 : k = keyN
  · subst h1; rw [ctxGet_set_same]
  · rw [ctxGet_set_ne _ h1 _]
    by_cases h2 : k = valN
    · subst h2; rw [ctxGet_set_same]
    · rw [ctxGet_set_ne _ h2 _]
      rcases hk with h | h | h
      · subst h; rw [ctxGet_set_same]
      · exact absurd h h2
      · exact absurd h h1

/-- C1: the claim states that a compiled dotted path never raises at render
time, resolving to the value when every segment is defined and non-null and
to `""` when a segment is missing under both roots. The code contradicts
it twice: `parseVar` splits the identifier on `','`, so `a.b` reaches
`checkMatch` as the single segment `"a.b"` and compilation itself raises
the (broken) reserved-keyword error; and the guard `checkMatch` emits
starts with `typeof _ctx.a.b`, whose member chain throws a TypeError at
render time as soon as `a` is missing (`{{ a.b }}` against `{}`), instead
of falling back to the bare scope or the empty string. Only a fully
defined path (third conjunct) and single-segment paths behave as
claimed. -/
theorem c1_path_resolution_throws :
    parseVarTP (mkParser [] (Esc.b true) 1 none) "a.b" none =
      .error (.swig "Reserved keyword \"a.b\" attempted to be used as a variable" 1 none)
    ∧ checkMatchSem (Js.obj []) [] (parseVarMatchArr "a.b") = .error .typeErr
    ∧ checkMatchSem (Js.obj []) [("a", Js.obj [("b", Js.str "hi")])]
        (parseVarMatchArr "a.b") = .error .typeErr
    ∧ checkMatchSem (Js.obj [("a", Js.obj [("b", Js.str "hi")])]) []
        (parseVarMatchArr "a.b") = .ok (.str "hi")
    ∧ checkMatchSem (Js.obj []) [] (parseVarMatchArr "a") = .ok (.str "") := by
  refine ⟨rfl, rfl, rfl, rfl, rfl⟩

/-- C2 (counterexample): the claim says the reserved-keyword check never
raises; but parsing the ordinary identifier `x` — not a reserved word —
raises exactly that error. -/
theorem c2_counterexample :
    reservedWords.contains "x" = false ∧
    parseVarTP (mkParser [] (Esc.b true) 1 none) "x" none =
      .error (.swig "Reserved keyword \"x\" attempted to be used as a variable" 1 none) := by
  refine ⟨rfl, rfl⟩

/-- C2 (amended): the reserved-keyword check is broken in the opposite
direction from the claim: `_reserved.indexOf[matchArr[0]]` reads a
property of the `indexOf` method, which is never the number `-1`, so the
`!== -1` test passes and every `VAR` token raises the reserved-keyword
error, whether or not its identifier is reserved. -/
theorem c2_reserved_check_always_raises (tp : TP) (m : String)
    (ls : Option StackVal) :
    parseVarTP tp m ls = .error (.swig
      ("Reserved keyword \"" ++ (parseVarMatchArr m).headD "" ++
        "\" attempted to be used as a variable") tp.line tp.filename) :=
  parseVarTP_always_error tp m ls

/-- C3: the claim says the implicit trailing default-escape filter compiles
to a complete zero-argument call leaving no open nesting state. In the
code the `FILTEREMPTY` case pushes the closing `')'` onto the nesting
state stack instead of the output buffer (parser.ts:233), so compiling
`{{ "s" }}` with auto-escaping on emits the unterminated
`_filters["e"]("s"`, leaves `')'` on the state stack, and
`parseVariable` raises `Unable to parse`. -/
theorem c3_trailing_escape_breaks_parse :
    parseVariableModel "\"s\"" c3Toks [("e", false)] (Esc.b true) 1 none =
      .error (.swig "Unable to parse \"\"s\"\"" 1 none)
    ∧ (okOr (tokenParserParse emptyHandlers
        (mkParser [("e", false)] (Esc.b true) 1 none) c3Toks) tpD).state =
      [StackVal.closeParen]
    ∧ String.join (okOr (tokenParserParse emptyHandlers
        (mkParser [("e", false)] (Esc.b true) 1 none) c3Toks) tpD).out =
      "_filters[\"e\"](\"s\"" := by
  refine ⟨rfl, rfl, rfl⟩

/-- C4: the claim says `x|a|b(2)` compiles to `b(a(x), 2)`. Because the
bare filter `a` (`FILTEREMPTY`) pushes its closing paren onto the nesting
state instead of the output (parser.ts:233), the compiled text is the
unterminated `_filters["b"](_filters["a"]("s", 2)` — the argument `2`
lands inside `a`'s call rather than `b`'s — the `')'` stays on the state
stack, and `parseVariable` raises `Unable to parse`. -/
theorem c4_filter_chain_miscompiles :
    String.join (okOr (tokenParserParse emptyHandlers
        (mkParser c4Filters (Esc.b false) 1 none) c4Toks) tpD).out =
      "_filters[\"b\"](_filters[\"a\"](\"s\", 2)"
    ∧ (okOr (tokenParserParse emptyHandlers
        (mkParser c4Filters (Esc.b false) 1 none) c4Toks) tpD).state =
      [StackVal.closeParen]
    ∧ parseVariableModel "\"s\"|a|b(2)" c4Toks c4Filters (Esc.b false) 1 none =
      .error (.swig "Unable to parse \"\"s\"|a|b(2)\"" 1 none) := by
  refine ⟨rfl, rfl, rfl⟩

theorem parseTokenSwitch_filter_safe {pt : Option LexerToken} {ls : Option StackVal}
    {tp2 : TP} {m : String} {tp' : TP}
    (hget : filtersGet tp2.filters m = some true)
    (he : parseTokenSwitch pt ls ⟨.FILTER, m⟩ tp2 = .ok tp') :
    tp'.escape = Esc.b false := by
  unfold parseTokenSwitch at he
  simp only [hget] at he
  simp only [if_true, Except.ok.injEq] at he
  rw [← he]

theorem parseTokenSwitch_filterempty_safe {pt : Option LexerToken} {ls : Option StackVal}
    {tp2 : TP} {m : String} {tp' : TP}
    (hget : filtersGet tp2.filters m = some true)
    (he : parseTokenSwitch pt ls ⟨.FILTEREMPTY, m⟩ tp2 = .ok tp') :
    tp'.escape = Esc.b false := by
  unfold parseTokenSwitch at he
  simp only [hget] at he
  simp only [if_true, Except.ok.injEq] at he
  rw [← he]

/-- C5: a filter whose `safe` flag is set turns the escape flag off
(parser.ts:222 and 231), and no later token of the session ever sets it
back on — every assignment to `escape` in `parseToken` either keeps the
current value or sets `false`, and the parse driver (token loop, hooks,
trailing escape step) preserves a disabled flag to the end. -/
theorem c5_safe_filter_disables_escape :
    (∀ (tp : TP) (m : String) (tp' : TP), filtersGet tp.filters m = some true →
      parseToken emptyHandlers tp ⟨.FILTER, m⟩ = .ok tp' → tp'.escape = Esc.b false)
    ∧ (∀ (tp : TP) (m : String) (tp' : TP), filtersGet tp.filters m = some true →
      parseToken emptyHandlers tp ⟨.FILTEREMPTY, m⟩ = .ok tp' → tp'.escape = Esc.b false)
    ∧ (∀ (tp : TP) (toks : List LexerToken) (tp' : TP), tp.escape = Esc.b false →
      tokenParserParse emptyHandlers tp toks = .ok tp' → tp'.escape = Esc.b false) := by
  refine ⟨?_, ?_, fun tp toks tp' h0 he => tokenParserParse_escOff emptyEscPreserving h0 he⟩
  · intro tp m tp' hget he
    unfold parseToken at he
    simp only [emptyHandlers, Option.orElse] at he
    unfold parseTokenCore at he
    exact parseTokenSwitch_filter_safe (by rw [preSwitchAdjust_filters]; exact hget) he
  · intro tp m tp' hget he
    unfold parseToken at he
    simp only [emptyHandlers, Option.orElse] at he
    unfold parseTokenCore at he
    exact parseTokenSwitch_filterempty_safe (by rw [preSwitchAdjust_filters]; exact hget) he

/-- C5 witness: applying the safe filter `raw` to a session with escaping
on leaves the flag off, and a full parse starting with the flag off ends
with it off. -/
theorem c5_witness :
    (okOr (parseToken emptyHandlers (mkParser [("raw", true)] (Esc.b true) 1 none)
      ⟨.FILTER, "raw"⟩) tpD).escape = Esc.b false
    ∧ (okOr (tokenParserParse emptyHandlers (mkParser [("n", false)] (Esc.b false) 1 none)
      [⟨.NUMBER, "1"⟩]) tpD).escape = Esc.b false :=
  ⟨c5_safe_filter_disables_escape.1 (mkParser [("raw", true)] (Esc.b true) 1 none)
     "raw" _ rfl rfl,
   c5_safe_filter_disables_escape.2.2 (mkParser [("n", false)] (Esc.b false) 1 none)
     [⟨.NUMBER, "1"⟩] _ rfl rfl⟩

/-- C6: looping over `{one: "hi", two: "bye"}`, the metadata the body
observes is `index=1, key="one", first=true, last=false` on the first
iteration and `index=2, key="two", first=false, last=true` on the second:
`first`/`last` are recomputed from `index0`/`revindex0` before each body
run, and the counters advance only after the body runs. -/
theorem c6_loop_metadata_two_key_mapping :
    Except.map (fun r => r.2.map (fun mjs =>
        (getPropD mjs "index", getPropD mjs "key",
         getPropD mjs "first", getPropD mjs "last")))
      (forLoopRun (fun c => .ok c) "x" "__k" c6Subj [])
    = .ok [(Js.num 1, Js.str "one", Js.b true, Js.b false),
           (Js.num 2, Js.str "two", Js.b false, Js.b true)] := rfl

/-- C7: whenever the emitted loop program finishes normally, the three
bindings it rebinds — the value name, the key name and `loop` — hold
exactly the values they had before the loop (restored from the cache
saved at entry, for.ts:66 and 77-79), for any body, including a nested
loop reusing the same names; and any other context binding the body
preserves is preserved by the whole loop. -/
theorem c7_loop_shadow_restore (body : Ctx → Except Err Ctx) (valN keyN : String)
    (subj : Js) (c c' : Ctx) (obs : List Js)
    (hrun : forLoopRun body valN keyN subj c = .ok (c', obs)) :
    (ctxGet c' "loop" = ctxGet c "loop" ∧ ctxGet c' valN = ctxGet c valN ∧
      ctxGet c' keyN = ctxGet c keyN)
    ∧ ∀ k, k ≠ valN → k ≠ keyN → k ≠ "loop" →
        (∀ d d', body d = .ok d' → ctxGet d' k = ctxGet d k) →
        ctxGet c' k = ctxGet c k := by
  unfold forLoopRun at hrun
  by_cases ht : subj.truthy = false
  · rw [if_pos ht] at hrun
    simp only [Except.ok.injEq, Prod.mk.injEq] at hrun
    obtain ⟨hc, _⟩ := hrun
    subst hc
    exact ⟨⟨rfl, rfl, rfl⟩, fun k _ _ _ _ => rfl⟩
  · rw [if_neg ht] at hrun
    cases hall : forIterAll body valN keyN (entriesOf subj)
        (ctxSet c "loop" (loopInit (lenOf subj))) with
    | error e => rw [hall] at hrun; exact (Except.noConfusion hrun)
    | ok p =>
        obtain ⟨c1, obs1⟩ := p
        rw [hall] at hrun
        simp only [Except.ok.injEq, Prod.mk.injEq] at hrun
        obtain ⟨hc, _⟩ := hrun
        subst hc
        refine ⟨⟨?_, ?_, ?_⟩, ?_⟩
        · exact ctxGet_restore c1 c valN keyN "loop" (Or.inl rfl)
        · exact ctxGet_restore c1 c valN keyN valN (Or.inr (Or.inl rfl))
        · exact ctxGet_restore c1 c valN keyN keyN (Or.inr (Or.inr rfl))
        · intro k hk1 hk2 hk3 hbody
          rw [ctxGet_set_ne _ hk2 _, ctxGet_set_ne _ hk1 _, ctxGet_set_ne _ hk3 _]
          rw [forIterAll_frame hk1 hk2 hk3 hbody (entriesOf subj) _ c1 obs1 hall]
          exact ctxGet_set_ne _ hk3 _

/-- C7 witness: a two-iteration outer loop whose body is an inner loop
reusing the same value and key names finishes with `x`, `__k`, `loop` and
the untouched binding `keep` exactly as before the outer loop. -/
theorem c7_witness :
    isOkCtx c7Run = true
    ∧ ctxGet (okCtxOr c7Run []) "loop" = ctxGet c7Ctx "loop"
    ∧ ctxGet (okCtxOr c7Run []) "x" = ctxGet c7Ctx "x"
    ∧ ctxGet (okCtxOr c7Run []) "__k" = ctxGet c7Ctx "__k"
    ∧ ctxGet (okCtxOr c7Run []) "keep" = ctxGet c7Ctx "keep" := by
  have h := (c7_loop_shadow_restore c7InnerBody "x" "__k" c6Subj c7Ctx
    (okCtxOr c7Run []) (okObsOr c7Run) rfl).1
  exact ⟨rfl, h.1, h.2.1, h.2.2, rfl⟩

/-- C8: the claim says the else tag's parse accepts exactly when its
argument list is empty and the top of the open-block stack is an open
`if` tag. The code never accepts: `parseTag` (parser.ts:558) passes the
lexer's `types` table as the fourth argument, and part_000:21 declares
only `(str, line, parser, stack)`, so the acceptance expression runs on
the types table, whose `length` reads `undefined` (first two conjuncts) —
the `&&` short-circuits to a falsy value and every `{% else %}`, even one
with no arguments directly inside an open `if`, raises
`Unexpected tag "else"` before its argument tokens are ever processed
(third conjunct). Conjuncts four and five show the expression itself
implements the claimed test when given the actual open-block stack value,
so the slip is the call-site wiring, not the check. The last conjunct is
the `'*'` handler part_000:22-24 registers before returning: it would
raise the error citing the token and line for every argument token,
though the unconditional rejection fires first. (The open-block stack is
never popped on this path: neither part_000 nor parser.ts:558-560
touches it.) -/
theorem c8_else_always_rejected :
    getProp typesTable "length" = .ok .undefined
    ∧ elseParseCheck typesTable = .ok .undefined
    ∧ (∀ (line : Nat) (filename : Option String),
        parseTagElse line filename =
          .error (.swig "Unexpected tag \"else\"" line filename))
    ∧ elseParseCheck (stackJs [⟨"if"⟩]) = .ok (.b true)
    ∧ elseParseCheck (stackJs [⟨"for"⟩]) = .ok (.b false)
    ∧ (∀ (line : Nat) (tp : TP) (tok : LexerToken),
        parseToken (elseHandlers line) tp tok =
          .error (.thrown (elseErrMsg tok.mtch line))) := by
  refine ⟨rfl, rfl, fun line filename => rfl, rfl, rfl, ?_⟩
  intro line tp tok
  unfold parseToken elseHandlers
  simp [Option.orElse, bind, Except.bind]

/-- C9: with the `ignore missing` modifier the emitted include swallows
any resolution/compilation failure into empty output, and without it the
failure propagates; parsing `"missing.html" ignore missing` produces an
argument list whose compile decomposition has the ignore flag set, the
plain include does not, and the token `missing` not immediately preceded
by `ignore` raises the syntax error citing the line. Side effect of the
call-site wiring (see `includeParseRun`): the tag's `opts` parameter is
bound to the open-block stack array, whose `filename` read is
`undefined`, so the `end` hook always pushes `null` (last conjunct) and
the decomposed `parentFile` is `""`, never the including template's
name — this does not affect the ignore/propagate behaviour the claim
states. -/
theorem c9_include_ignore_missing :
    (∀ (spec : IncSpec) (resolver : String → String → Except Err (IncCtxArg → String))
      (e : Err), spec.ignore = true → resolver spec.file spec.parentFile = .error e →
      includeRender spec resolver = .ok "")
    ∧ (∀ (spec : IncSpec) (resolver : String → String → Except Err (IncCtxArg → String))
      (e : Err), spec.ignore = false → resolver spec.file spec.parentFile = .error e →
      includeRender spec resolver = .error e)
    ∧ Except.map (fun tp => includeCompileSpec tp.out)
        (includeParseRun 3 (some "main.html") [] c9ToksIgnore) = .ok c9SpecIgnore
    ∧ Except.map (fun tp => includeCompileSpec tp.out)
        (includeParseRun 3 (some "main.html") [] c9ToksPlain) = .ok c9SpecPlain
    ∧ includeParseRun 3 (some "main.html") [] c9ToksStray
      = .error (.thrown "Unexpected token \"missing\" on line 3.")
    ∧ includeEndHookValue (stackJs [⟨"if"⟩]) = Js.null := by
  refine ⟨?_, ?_, rfl, rfl, rfl, rfl⟩
  · intro spec resolver e hig hres
    unfold includeRender
    rw [hres]
    simp [hig]
  · intro spec resolver e hig hres
    unfold includeRender
    rw [hres]
    simp [hig]

/-- C9 witness: a resolver failing with a ResolutionFailure is swallowed
into `""` under the ignore flag and propagated without it. -/
theorem c9_witness :
    includeRender c9SpecIgnore (failResolver (.thrown "ResolutionFailure")) = .ok ""
    ∧ includeRender c9SpecPlain (failResolver (.thrown "ResolutionFailure"))
      = .error (.thrown "ResolutionFailure") :=
  ⟨c9_include_ignore_missing.1 _ _ _ rfl rfl,
   c9_include_ignore_missing.2.1 _ _ _ rfl rfl⟩

/-- C10: a tag's argument parser is constructed with auto-escaping `false`
(parser.ts:555), and since no installed handler or default token handling
can turn a disabled flag back on, the whole tag-argument parse equals the
pipeline with no trailing escape step; a variable output's parser
receives the template's current escape setting (parser.ts:499). -/
theorem c10_tag_args_never_escaped (h : Handlers) (hp : EscPreserving h)
    (filters : Filters) (line : Nat) (filename : Option String)
    (toks : List LexerToken) :
    (mkTagArgParser filters line filename).escape = Esc.b false
    ∧ tokenParserParse h (mkTagArgParser filters line filename) toks
      = tokenParserParseNoEscape h (mkTagArgParser filters line filename) toks
    ∧ ∀ esc, (mkParser filters esc line filename).escape = esc :=
  ⟨rfl, tokenParserParse_tagEqNoEscape hp rfl toks, fun _ => rfl⟩

/-- C10 witness: the handler-free instance at a concrete token list. -/
theorem c10_witness :
    tokenParserParse emptyHandlers (mkTagArgParser [] 5 none) [⟨.NUMBER, "1"⟩]
      = tokenParserParseNoEscape emptyHandlers (mkTagArgParser [] 5 none) [⟨.NUMBER, "1"⟩] :=
  (c10_tag_args_never_escaped emptyHandlers emptyEscPreserving [] 5 none
    [⟨.NUMBER, "1"⟩]).2.1
